import Mathlib

/-!
Verification development for the pulsar execution core.

The first part embeds `pulsar/apps/greenio/__init__.py`: the `GreenPool`
of cooperatively scheduled greenlets, its FIFO task deque, the dispatch
and drain protocol, and the `wait` primitive.  The pool runs on a
single-threaded event loop; `loop.call_soon` and `async(coro)` both
append a callback to the loop's FIFO callback queue, which the machine
models with an explicit event list processed one event per step.

The second part embeds `pulsar/workers/base.py`: the `Worker` request
accounting (`handle_request`, `check_num_requests`, `_stop`) together
with an event trace recording the order of the observable actions.
-/

namespace Pulsar

/-- Outcome of a user callable once it runs to its end:
`func(*args, **kwargs)` either returns a value or raises an exception. -/
inductive TaskOutcome
  | ret (v : Int)
  | err (e : Int)
deriving DecidableEq

/-- One `wait` point inside a user callable.  `isAsync` records whether the
value handed to `wait` is asynchronous (`is_async` in the source); for an
asynchronous value, `settled` is the value its future settles to. -/
structure WaitItem where
  isAsync : Bool
  settled : Int
deriving DecidableEq

/-- A user callable submitted to the pool, as run inside a greenlet: a
finite sequence of `wait` suspension points followed by a final outcome. -/
structure TaskProg where
  waits : List WaitItem
  outcome : TaskOutcome
deriving DecidableEq

/-- An entry of the pool's deque: either a real task (the 4-tuple
`(future, func, args, kwargs)`, with the future named by its id) or the
`None` shutdown sentinel pushed by `_put()`. -/
inductive QItem
  | task (fid : Nat) (prog : TaskProg)
  | sentinel
deriving DecidableEq

/-- Resolution of a task future: `set_result` or `set_exception`. -/
inductive FutResult
  | ok (v : Int)
  | exn (e : Int)
deriving DecidableEq

/-- Control state of a live greenlet running `_green_run`: suspended at
`task = parent.switch()` waiting for work, or suspended at a `wait`
point in the middle of a task with the rest of the task still to run. -/
inductive GrState
  | waiting
  | inTask (fid : Nat) (waits : List WaitItem) (outcome : TaskOutcome)
deriving DecidableEq

/-- A callback sitting in the host event loop's FIFO queue:
`checkQueue` for `loop.call_soon(self._check_queue)`,
`startGreenTask` for a scheduled `async(self._green_task(g, task))`,
`resumeGreenTask` for the resumption of `_green_task` after the future
it was bridging (via `yield from`) settled with the given value. -/
inductive LEvent
  | checkQueue
  | startGreenTask (gid : Nat) (item : QItem)
  | resumeGreenTask (gid : Nat) (v : Int)
deriving DecidableEq

/-- State of a `GreenPool` together with its host event loop.
`waiter` models `self._waiter is not None`; `waiterResolved` records
whether the future returned by `shutdown(wait=True)` has been resolved
(the source clears `self._waiter` right after resolving it, so the
resolution itself needs its own field to stay observable).
`futures` holds the resolved futures only: a future id absent from it
is a future that has not been resolved. -/
structure Pool where
  maxWorkers : Int
  greenlets : List Nat
  available : List Nat
  queue : List QItem
  shutdown : Bool
  waiter : Bool
  waiterResolved : Bool
  futures : List (Nat × FutResult)
  grstate : List (Nat × GrState)
  nextGid : Nat
  nextFut : Nat
  events : List LEvent
deriving DecidableEq

/-- Association-list lookup by greenlet / future id. -/
def alookup {β : Type} : List (Nat × β) → Nat → Option β
  | [], _ => none
  | (k, v) :: rest, g => if k = g then some v else alookup rest g

/-- Association-list update (insert when absent). -/
def aset {β : Type} : List (Nat × β) → Nat → β → List (Nat × β)
  | [], g, st => [(g, st)]
  | (k, v) :: rest, g, st =>
    if k = g then (g, st) :: rest else (k, v) :: aset rest g st

/-- Association-list removal. -/
def aremove {β : Type} : List (Nat × β) → Nat → List (Nat × β)
  | [], _ => []
  | (k, v) :: rest, g =>
    if k = g then aremove rest g else (k, v) :: aremove rest g

def DEFAULT_WORKERS : Int := 100
def MAX_WORKERS : Int := 1000

/-- Python's `x or d` for the `max_workers` argument: `None` and `0` are
falsy and give the default. -/
def pyOrDefault (m : Option Int) (d : Int) : Int :=
  match m with
  | none => d
  | some v => if v = 0 then d else v

/-- `min(max_workers or _DEFAULT_WORKERS, _MAX_WORKERS)` from
`GreenPool.__init__`. -/
def maxWorkersOf (m : Option Int) : Int :=
  min (pyOrDefault m DEFAULT_WORKERS) MAX_WORKERS

/-- `GreenPool.__init__`: empty greenlet set, empty available set, empty
deque, shutdown flag clear, no waiter. -/
def mkPool (m : Option Int) : Pool :=
  { maxWorkers := maxWorkersOf m
    greenlets := []
    available := []
    queue := []
    shutdown := false
    waiter := false
    waiterResolved := false
    futures := []
    grstate := []
    nextGid := 0
    nextFut := 0
    events := [] }

/-- `GreenPool._adjust_greenlet_count`: when the live greenlet count is
strictly below `_max_workers`, create a `GreenletWorker` and switch into
it; the new greenlet runs `_green_run` up to its first suspension, which
adds it to `_available` and schedules `_check_queue` on the loop. -/
def adjust_greenlet_count (s : Pool) : Pool :=
  if (s.greenlets.length : Int) < s.maxWorkers then
    let gid := s.nextGid
    { s with
      greenlets := gid :: s.greenlets
      nextGid := gid + 1
      available := gid :: s.available
      grstate := aset s.grstate gid GrState.waiting
      events := s.events ++ [LEvent.checkQueue] }
  else s

/-- `GreenPool._check_queue`: pop from the right end of the deque (the
oldest entry — `_put` appends on the left); on an empty deque return.
Only if `_available` is non-empty is the popped item handed to an idle
greenlet by scheduling `_green_task`; note the pop happens before the
availability check, so with no idle greenlet the popped item is gone. -/
def check_queue (s : Pool) : Pool :=
  match s.queue.getLast? with
  | none => s
  | some item =>
    match s.available with
    | [] => { s with queue := s.queue.dropLast }
    | g :: rest =>
      { s with
        queue := s.queue.dropLast
        available := rest
        events := s.events ++ [LEvent.startGreenTask g item] }

/-- `GreenPool._put`: with a real task, first `_adjust_greenlet_count`
(the `None` sentinel is falsy and skips it), then `appendleft` on the
deque, then `_check_queue`. -/
def put (s : Pool) (item : QItem) : Pool :=
  let s1 := match item with
            | QItem.task _ _ => adjust_greenlet_count s
            | QItem.sentinel => s
  check_queue { s1 with queue := item :: s1.queue }

/-- The error raised by `submit` after shutdown
(`RuntimeError: cannot schedule new futures after shutdown`). -/
inductive PoolError
  | poolClosed
deriving DecidableEq

/-- `GreenPool.submit`: under the shutdown lock, raise if `_shutdown` is
set (leaving the pool untouched); otherwise create a fresh future and
`_put` the task, returning the future. -/
def submit (s : Pool) (prog : TaskProg) : Except PoolError Nat × Pool :=
  if s.shutdown then (Except.error PoolError.poolClosed, s)
  else
    let fid := s.nextFut
    (Except.ok fid, put { s with nextFut := fid + 1 } (QItem.task fid prog))

/-- `GreenPool.shutdown`: set `_shutdown`, `_put()` the `None` sentinel,
and when `wait` is true install the waiter future that is handed back to
the caller. -/
def shutdownPool (s : Pool) (wait : Bool) : Pool :=
  let s1 := put { s with shutdown := true } QItem.sentinel
  if wait then { s1 with waiter := true } else s1

/-- What a `greenlet.switch` into a worker greenlet hands back to the
main greenlet: either the value passed to `wait` (with its `is_async`
status) or `None` when the greenlet re-suspends at `parent.switch()`
or finishes. -/
inductive SwitchResult
  | yielded (v : Int) (isAsync : Bool)
  | finished
deriving DecidableEq

/-- The `try/except/else` around `result = func(*args, **kwargs)` in
`_green_run`: an exception resolves the future via `set_exception`, a
normal return resolves it via `set_result`. -/
def runTaskBody (s : Pool) (fid : Nat) (out : TaskOutcome) : Pool :=
  match out with
  | TaskOutcome.ret v => { s with futures := (fid, FutResult.ok v) :: s.futures }
  | TaskOutcome.err e => { s with futures := (fid, FutResult.exn e) :: s.futures }

/-- Top of the `while task:` loop in `_green_run`: the greenlet adds
itself to `_available`, schedules `_check_queue` with `call_soon`, and
suspends at `task = parent.switch()`. -/
def registerIdle (s : Pool) (gid : Nat) : Pool :=
  { s with
    available := gid :: s.available
    grstate := aset s.grstate gid GrState.waiting
    events := s.events ++ [LEvent.checkQueue] }

/-- Run the user callable inside greenlet `gid` from its current point:
at the next `wait` the greenlet suspends and the waited value is handed
to the invoker; with no `wait` left the callable finishes, its future is
resolved, and the greenlet loops back to register idle and suspend. -/
def runUserCode (s : Pool) (gid fid : Nat) (waits : List WaitItem)
    (out : TaskOutcome) : Pool × SwitchResult :=
  match waits with
  | w :: rest =>
    ({ s with grstate := aset s.grstate gid (GrState.inTask fid rest out) },
     SwitchResult.yielded w.settled w.isAsync)
  | [] =>
    (registerIdle (runTaskBody s fid out) gid, SwitchResult.finished)

/-- The `else` branch of `_green_run` on receiving the `None` sentinel:
the greenlet removes itself from `_greenlets`; if other greenlets
remain it re-puts a sentinel (cascading the drain), otherwise, when a
waiter is installed, it resolves the waiter and clears it.  The
`while task:` condition then fails and the greenlet dies. -/
def terminateGreenlet (s : Pool) (gid : Nat) : Pool :=
  if (s.greenlets.erase gid).isEmpty then
    if s.waiter then
      { s with
        greenlets := s.greenlets.erase gid
        grstate := aremove s.grstate gid
        waiter := false
        waiterResolved := true }
    else
      { s with
        greenlets := s.greenlets.erase gid
        grstate := aremove s.grstate gid }
  else
    put { s with
          greenlets := s.greenlets.erase gid
          grstate := aremove s.grstate gid } QItem.sentinel

/-- The driver loop of `_green_task` after a `greenlet.switch`: while the
switch result `is_async`, `yield from` it — modelled by scheduling the
resumption with the settled value as a later loop callback — and switch
the settled value back in; a non-asynchronous result ends the coroutine
(leaving a greenlet suspended mid-task unresumed). -/
def afterSwitch (gid : Nat) : Pool × SwitchResult → Pool
  | (s, SwitchResult.finished) => s
  | (s, SwitchResult.yielded v isAsync) =>
    if isAsync then { s with events := s.events ++ [LEvent.resumeGreenTask gid v] }
    else s

/-- Process one callback from the host loop's FIFO queue. -/
def stepPool (s : Pool) : Pool :=
  match s.events with
  | [] => s
  | ev :: rest =>
    let s1 := { s with events := rest }
    match ev with
    | LEvent.checkQueue => check_queue s1
    | LEvent.startGreenTask gid item =>
      match item with
      | QItem.sentinel =>
        afterSwitch gid (terminateGreenlet s1 gid, SwitchResult.finished)
      | QItem.task fid prog =>
        match alookup s1.grstate gid with
        | some GrState.waiting =>
          afterSwitch gid (runUserCode s1 gid fid prog.waits prog.outcome)
        | _ => s1
    | LEvent.resumeGreenTask gid _v =>
      match alookup s1.grstate gid with
      | some (GrState.inTask fid waits out) =>
        afterSwitch gid (runUserCode s1 gid fid waits out)
      | _ => s1

/-- Run the host loop for a bounded number of callbacks. -/
def runPool : Nat → Pool → Pool
  | 0, s => s
  | n + 1, s => runPool n (stepPool s)

/-- The `wait` function of the module: `parent.switch(value) if parent
else value`.  A greenlet with an invoker hands `value` back to it and
returns whatever the invoker passes on the next switch into the
greenlet — modelled by the invoker's response function; with no parent
the value comes back unchanged. -/
def wait {α : Type} (parent : Option (α → α)) (value : α) : α :=
  match parent with
  | some p => p value
  | none => value

/-- Submit a list of task programs back to back (one loop callback). -/
def submitMany (s : Pool) (progs : List TaskProg) : Pool :=
  progs.foldl (fun st p => (submit st p).2) s

/-- The spec's scenario task: suspend once on an asynchronous value
(a sleep), then return the task's own index. -/
def sleepTask (i : Int) : TaskProg :=
  { waits := [{ isAsync := true, settled := 0 }], outcome := TaskOutcome.ret i }

/-- A task with no suspension point, returning `v`. -/
def plainTask (v : Int) : TaskProg :=
  { waits := [], outcome := TaskOutcome.ret v }

/-- The spec's scenario: a pool with `max_workers = 2`, five sleeping
tasks submitted back to back, the loop then run to quiescence. -/
def scenarioFivePool : Pool :=
  runPool 20 (submitMany (mkPool (some 2))
    [sleepTask 0, sleepTask 1, sleepTask 2, sleepTask 3, sleepTask 4])

/-- A pool with one idle greenlet (created by running one plain task to
completion), then shut down with `wait=True` and run to quiescence. -/
def scenarioDrainPool : Pool :=
  runPool 20 (shutdownPool (runPool 20 (submitMany (mkPool (some 2)) [plainTask 7])) true)

/-- Shutdown with `wait=True` on a pool that never created a greenlet,
run to quiescence. -/
def scenarioEmptyShutdown : Pool :=
  runPool 10 (shutdownPool (mkPool (some 2)) true)

/-- Drain safety invariant: a pending or resolved waiter implies the
shutdown flag is set, and a resolved waiter implies no live greenlet
remains. -/
def drainInv (s : Pool) : Prop :=
  (s.waiter = true ∨ s.waiterResolved = true → s.shutdown = true)
    ∧ (s.waiterResolved = true → s.greenlets = [])

instance (s : Pool) : Decidable (drainInv s) := by
  unfold drainInv
  infer_instance

/-!
Embedding of `pulsar/workers/base.py`: the request accounting of
`Worker`.  The observable actions of `handle_request` are recorded in an
event trace so that their order is part of the model.
-/

/-- Observable actions during request handling, in the order they are
performed. -/
inductive WEvent
  | incremented (nr : Nat)
  | stopInitiated
  | preRequestHook (req : Nat)
  | handleStarted (req : Nat)
  | handled (req : Nat)
  | postRequestHook (req : Nat)
deriving DecidableEq

/-- Worker state relevant to request accounting: `nr` is the request
counter, `max_requests` the auto-restart threshold (after the
`or sys.maxsize` defaulting of `__init__`, so never `0` in a worker
built by `__init__`), `running` whether the ioloop is running and
`closed` whether `self.close()` has been called. -/
structure Worker where
  nr : Nat
  max_requests : Nat
  running : Bool
  closed : Bool
deriving DecidableEq

/-- `sys.maxsize` on a 64-bit build. -/
def SYS_MAXSIZE : Nat := 2 ^ 63 - 1

/-- `getattr(cfg, 'max_requests', None) or sys.maxsize` from
`Worker.__init__`: an unset or falsy threshold means unbounded. -/
def maxRequestsOf (m : Option Nat) : Nat :=
  match m with
  | none => SYS_MAXSIZE
  | some v => if v = 0 then SYS_MAXSIZE else v

/-- A freshly set up worker with its ioloop running. -/
def workerStart (m : Option Nat) : Worker :=
  { nr := 0, max_requests := maxRequestsOf m, running := true, closed := false }

/-- `Worker._stop`: when the ioloop is running, `self.close()` and
`self.ioloop.stop()`. -/
def workerStop (w : Worker) : Worker × List WEvent :=
  if w.running then
    ({ w with closed := true, running := false }, [WEvent.stopInitiated])
  else (w, [])

/-- `Worker.check_num_requests`: when `max_requests` is truthy and
`self.nr >= self.max_requests`, stop the event loop via `_stop`. -/
def check_num_requests (w : Worker) : Worker × List WEvent :=
  if w.max_requests ≠ 0 ∧ w.max_requests ≤ w.nr then workerStop w
  else (w, [])

/-- `Worker.handle_request`: increment `nr`, run `check_num_requests`,
invoke the `pre_request` hook, then
`try: self._handle_request(req) finally: try: post_request except: pass`.
The handler's own outcome (`hres`) is the call's outcome; the
`post_request` hook runs in the `finally` on every path, and any error
it raises (`postRes`) is swallowed by the inner `try/except`. -/
def handle_request (w : Worker) (req : Nat) (hres : Except Int Unit)
    (postRes : Except Int Unit) : Worker × Except Int Unit × List WEvent :=
  let w1 := { w with nr := w.nr + 1 }
  let chk := check_num_requests w1
  let trBody := match hres with
                | Except.ok _ => [WEvent.handleStarted req, WEvent.handled req]
                | Except.error _ => [WEvent.handleStarted req]
  let outcome := match postRes with
                 | Except.ok _ => hres
                 | Except.error _ => hres
  (chk.1, outcome,
    WEvent.incremented w1.nr :: chk.2
      ++ [WEvent.preRequestHook req] ++ trBody ++ [WEvent.postRequestHook req])

/-- The ioloop driving the worker: requests are dispatched to
`handle_request` one at a time, only while the loop is running (handlers
and hooks succeeding). -/
def serveRequests (w : Worker) : List Nat → Worker × List WEvent
  | [] => (w, [])
  | r :: rs =>
    if w.running then
      let one := handle_request w r (Except.ok ()) (Except.ok ())
      let next := serveRequests one.1 rs
      (next.1, one.2.2 ++ next.2)
    else (w, [])

/-- The requests a trace shows as handled to completion. -/
def handledOf (tr : List WEvent) : List Nat :=
  tr.filterMap (fun e => match e with
    | WEvent.handled r => some r
    | _ => none)

/-- Trace of a worker with `max_requests = 1` offered two requests. -/
def scenarioMaxOneTrace : List WEvent :=
  (serveRequests (workerStart (some 1)) [10, 20]).2

/-- A freshly built pool with `max_workers = 2`. -/
def poolA : Pool := mkPool (some 2)

/-- A pool whose shutdown flag is set. -/
def poolClosedEx : Pool := { mkPool (some 2) with shutdown := true }

/-- A pool with one queued sentinel and one idle greenlet id. -/
def poolQueuedEx : Pool :=
  { mkPool (some 2) with queue := [QItem.sentinel], available := [5] }

end Pulsar

namespace Pulsar

/-! Helper lemmas about the embedded operations. -/

theorem adjust_queue_eq (s : Pool) :
    (adjust_greenlet_count s).queue = s.queue := by
  unfold adjust_greenlet_count
  split <;> rfl

theorem adjust_maxWorkers_eq (s : Pool) :
    (adjust_greenlet_count s).maxWorkers = s.maxWorkers := by
  unfold adjust_greenlet_count
  split <;> rfl

theorem check_queue_greenlets (s : Pool) :
    (check_queue s).greenlets = s.greenlets := by
  unfold check_queue
  split
  · rfl
  · split <;> rfl

theorem check_queue_maxWorkers (s : Pool) :
    (check_queue s).maxWorkers = s.maxWorkers := by
  unfold check_queue
  split
  · rfl
  · split <;> rfl

theorem drainInv_check_queue (s : Pool) :
    drainInv (check_queue s) ↔ drainInv s := by
  unfold check_queue
  split
  · exact Iff.rfl
  · split <;> exact Iff.rfl

theorem put_sentinel_greenlets (s : Pool) :
    (put s QItem.sentinel).greenlets = s.greenlets := by
  unfold put
  exact check_queue_greenlets _

theorem put_sentinel_maxWorkers (s : Pool) :
    (put s QItem.sentinel).maxWorkers = s.maxWorkers := by
  unfold put
  exact check_queue_maxWorkers _

theorem drainInv_put_sentinel (s : Pool) :
    drainInv (put s QItem.sentinel) ↔ drainInv s := by
  unfold put
  exact drainInv_check_queue _

theorem drainInv_terminate (s : Pool) (gid : Nat) (h : drainInv s) :
    drainInv (terminateGreenlet s gid) := by
  obtain ⟨h1, h2⟩ := h
  unfold terminateGreenlet
  split_ifs with he hw
  · exact ⟨fun _ => h1 (Or.inl hw), fun _ => List.isEmpty_iff.mp he⟩
  · exact ⟨fun hor => h1 hor, fun _ => List.isEmpty_iff.mp he⟩
  · refine (drainInv_put_sentinel _).mpr ⟨h1, fun hwr => ?_⟩
    have hnil := h2 hwr
    simp [hnil]

theorem drainInv_afterSwitch_runUserCode (s : Pool) (gid fid : Nat)
    (waits : List WaitItem) (out : TaskOutcome) :
    drainInv (afterSwitch gid (runUserCode s gid fid waits out)) ↔ drainInv s := by
  cases waits with
  | nil => cases out <;> exact Iff.rfl
  | cons w rest =>
    cases hw : w.isAsync <;>
      simp [runUserCode, afterSwitch, hw] <;> exact Iff.rfl

theorem greenlets_afterSwitch_runUserCode (s : Pool) (gid fid : Nat)
    (waits : List WaitItem) (out : TaskOutcome) :
    (afterSwitch gid (runUserCode s gid fid waits out)).greenlets = s.greenlets := by
  cases waits with
  | nil => cases out <;> rfl
  | cons w rest => cases hw : w.isAsync <;> simp [runUserCode, afterSwitch, hw]

theorem maxWorkers_afterSwitch_runUserCode (s : Pool) (gid fid : Nat)
    (waits : List WaitItem) (out : TaskOutcome) :
    (afterSwitch gid (runUserCode s gid fid waits out)).maxWorkers = s.maxWorkers := by
  cases waits with
  | nil => cases out <;> rfl
  | cons w rest => cases hw : w.isAsync <;> simp [runUserCode, afterSwitch, hw]

theorem terminate_greenlets_length (s : Pool) (gid : Nat) :
    (terminateGreenlet s gid).greenlets.length ≤ s.greenlets.length := by
  unfold terminateGreenlet
  split_ifs with he hw
  · exact (List.erase_sublist gid s.greenlets).length_le
  · exact (List.erase_sublist gid s.greenlets).length_le
  · rw [put_sentinel_greenlets]
    exact (List.erase_sublist gid s.greenlets).length_le

theorem terminate_maxWorkers (s : Pool) (gid : Nat) :
    (terminateGreenlet s gid).maxWorkers = s.maxWorkers := by
  unfold terminateGreenlet
  split_ifs with he hw
  · rfl
  · rfl
  · rw [put_sentinel_maxWorkers]

theorem step_greenlets_length (s : Pool) :
    (stepPool s).greenlets.length ≤ s.greenlets.length := by
  unfold stepPool
  split
  · exact Nat.le_refl _
  · dsimp only
    split
    · rw [check_queue_greenlets]
    · split
      · exact terminate_greenlets_length _ _
      · split
        · rw [greenlets_afterSwitch_runUserCode]
        · exact Nat.le_refl _
    · split
      · rw [greenlets_afterSwitch_runUserCode]
      · exact Nat.le_refl _

theorem step_maxWorkers (s : Pool) :
    (stepPool s).maxWorkers = s.maxWorkers := by
  unfold stepPool
  split
  · rfl
  · dsimp only
    split
    · rw [check_queue_maxWorkers]
    · split
      · exact terminate_maxWorkers _ _
      · split
        · rw [maxWorkers_afterSwitch_runUserCode]
        · rfl
    · split
      · rw [maxWorkers_afterSwitch_runUserCode]
      · rfl

theorem drainInv_step (s : Pool) (h : drainInv s) : drainInv (stepPool s) := by
  unfold stepPool
  split
  · exact h
  · dsimp only
    split
    · exact (drainInv_check_queue _).mpr h
    · split
      · exact drainInv_terminate _ _ h
      · split
        · exact (drainInv_afterSwitch_runUserCode _ _ _ _ _).mpr h
        · exact h
    · split
      · exact (drainInv_afterSwitch_runUserCode _ _ _ _ _).mpr h
      · exact h

theorem put_task_greenlets (s : Pool) (fid : Nat) (prog : TaskProg) :
    (put s (QItem.task fid prog)).greenlets = (adjust_greenlet_count s).greenlets := by
  unfold put
  exact check_queue_greenlets _

theorem put_task_maxWorkers (s : Pool) (fid : Nat) (prog : TaskProg) :
    (put s (QItem.task fid prog)).maxWorkers = (adjust_greenlet_count s).maxWorkers := by
  unfold put
  exact check_queue_maxWorkers _

theorem adjust_length_le (s : Pool)
    (h : (s.greenlets.length : Int) ≤ s.maxWorkers) :
    ((adjust_greenlet_count s).greenlets.length : Int)
      ≤ (adjust_greenlet_count s).maxWorkers := by
  unfold adjust_greenlet_count
  split_ifs with hlt
  · simp only [List.length_cons]
    push_cast
    omega
  · exact h

theorem handledOf_append (l1 l2 : List WEvent) :
    handledOf (l1 ++ l2) = handledOf l1 ++ handledOf l2 := by
  simp [handledOf, List.filterMap_append]

theorem handledOf_handle_request_ok (w : Worker) (r : Nat) (q : Except Int Unit) :
    handledOf (handle_request w r (Except.ok ()) q).2.2 = [r] := by
  unfold handle_request check_num_requests workerStop
  dsimp only
  split_ifs <;> simp [handledOf]

theorem handle_request_next_state (w : Worker) (r : Nat)
    (h1 : w.max_requests ≠ 0) (hrun : w.running = true) :
    (handle_request w r (Except.ok ()) (Except.ok ())).1.nr = w.nr + 1
    ∧ (handle_request w r (Except.ok ()) (Except.ok ())).1.max_requests = w.max_requests
    ∧ (handle_request w r (Except.ok ()) (Except.ok ())).1.running
        = decide (w.nr + 1 < w.max_requests) := by
  unfold handle_request check_num_requests workerStop
  dsimp only
  simp only [hrun, if_true]
  split_ifs with hc
  · refine ⟨rfl, rfl, ?_⟩
    have hn : ¬ (w.nr + 1 < w.max_requests) := by omega
    simp [hn]
  · refine ⟨rfl, rfl, ?_⟩
    have hlt : w.nr + 1 < w.max_requests := by
      rcases Decidable.not_and_iff_or_not.mp hc with h | h
      · exact absurd h1 h
      · omega
    simp [hlt]

theorem serve_handled_take (rs : List Nat) : ∀ w : Worker,
    w.max_requests ≠ 0 →
    w.running = decide (w.nr < w.max_requests) →
    handledOf (serveRequests w rs).2 = rs.take (w.max_requests - w.nr) := by
  induction rs with
  | nil =>
    intro w h1 h2
    simp [serveRequests, handledOf]
  | cons r rs ih =>
    intro w h1 h2
    by_cases hr : w.nr < w.max_requests
    · have hrun : w.running = true := by rw [h2]; simp [hr]
      have hnext := handle_request_next_state w r h1 hrun
      rw [serveRequests]
      simp only [hrun, if_true]
      rw [handledOf_append, handledOf_handle_request_ok w r (Except.ok ())]
      rw [ih _ (by rw [hnext.2.1]; exact h1) (by rw [hnext.2.2, hnext.1, hnext.2.1])]
      rw [hnext.1, hnext.2.1]
      rw [List.singleton_append]
      rw [show w.max_requests - w.nr = (w.max_requests - (w.nr + 1)) + 1 from by omega]
      rw [List.take_succ_cons]
    · have hrun : w.running = false := by rw [h2]; simp [hr]
      rw [serveRequests]
      simp only [hrun, if_false, Bool.false_eq_true]
      simp [handledOf, Nat.sub_eq_zero_of_le (Nat.le_of_not_lt hr)]

/-! Claim theorems. -/

/-- Claim C1 (evaluation at the failing input).  In a pool with
`max_workers = 2`, five tasks submitted back to back — each suspending
once on an asynchronous value and then returning its own index — do NOT
all resolve: the loop reaches quiescence (no pending callback, empty
deque, stepping is a fixpoint) with the futures of tasks 0 and 1
resolved with their indices, while the futures of tasks 2, 3 and 4 were
created (`nextFut = 5`) but are never resolved.  `_check_queue` pops a
task from the deque before checking for an idle greenlet and discards
the popped task when none is idle, contradicting the claim that a task
is popped only when it can be handed to an idle context. -/
theorem greenPool_five_submissions_drop_tasks_without_idle_context :
    scenarioFivePool.events = []
    ∧ scenarioFivePool.queue = []
    ∧ stepPool scenarioFivePool = scenarioFivePool
    ∧ scenarioFivePool.nextFut = 5
    ∧ alookup scenarioFivePool.futures 0 = some (FutResult.ok 0)
    ∧ alookup scenarioFivePool.futures 1 = some (FutResult.ok 1)
    ∧ alookup scenarioFivePool.futures 2 = none
    ∧ alookup scenarioFivePool.futures 3 = none
    ∧ alookup scenarioFivePool.futures 4 = none := by
  decide

/-- Claim C3: a `submit` performed while the shutdown flag is set fails
synchronously with the pool-closed error, and the pool state — in
particular the deque, the set of live greenlets and the greenlet
counter — is returned unchanged: no task is enqueued and no greenlet is
created. -/
theorem greenPool_submit_after_shutdown_fails_unchanged
    (s : Pool) (prog : TaskProg) (h : s.shutdown = true) :
    submit s prog = (Except.error PoolError.poolClosed, s) := by
  simp [submit, h]

/-- Claim C3 witness: the theorem at a concrete closed pool. -/
theorem greenPool_submit_after_shutdown_fails_unchanged_witness :
    poolClosedEx.shutdown = true
    ∧ submit poolClosedEx (plainTask 1)
        = (Except.error PoolError.poolClosed, poolClosedEx) :=
  ⟨rfl, greenPool_submit_after_shutdown_fails_unchanged poolClosedEx (plainTask 1) rfl⟩

/-- Claim C5: when the user callable dispatched into a greenlet runs to
its end (no `wait` left), exactly one resolution is recorded for its
future — `set_exception` with the raised error when it raises,
`set_result` with the returned value when it returns — the greenlet
switches back to the host loop normally (no exception escapes to the
invoker), and it re-registers itself as idle. -/
theorem greenPool_task_outcome_resolves_future_exactly
    (s : Pool) (gid fid : Nat) (out : TaskOutcome) :
    (runUserCode s gid fid [] out).1.futures
        = (fid, match out with
                | TaskOutcome.ret v => FutResult.ok v
                | TaskOutcome.err e => FutResult.exn e) :: s.futures
    ∧ (runUserCode s gid fid [] out).2 = SwitchResult.finished
    ∧ (runUserCode s gid fid [] out).1.available = gid :: s.available := by
  cases out <;> exact ⟨rfl, rfl, rfl⟩

/-- Claim C7: `wait value` run with no parent greenlet (outside any
pooled context) returns `value` unchanged, and run with a parent (inside
a pooled context) switches `value` back to its invoker and returns
whatever the invoker passes on the next switch into the greenlet — for
every value, with no inspection of the value. -/
theorem wait_returns_value_or_switches_back
    (v : Int) (k : Int → Int) :
    wait (none : Option (Int → Int)) v = v ∧ wait (some k) v = k v :=
  ⟨rfl, rfl⟩

/-- Claim C9: for every request run through `handle_request`, the
`post_request` hook is invoked (it appears in the trace) on every path,
including when the request handler raises; and an error raised by the
`post_request` hook is swallowed: the call's outcome equals the
handler's own outcome whatever the hook does. -/
theorem worker_post_request_always_invoked_and_swallowed
    (w : Worker) (req : Nat) (hres postRes : Except Int Unit) :
    WEvent.postRequestHook req ∈ (handle_request w req hres postRes).2.2
    ∧ (handle_request w req hres postRes).2.1 = hres
    ∧ (handle_request w req hres postRes).2.1
        = (handle_request w req hres (Except.ok ())).2.1 := by
  refine ⟨?_, ?_, ?_⟩
  · unfold handle_request
    dsimp only
    cases hres <;> simp
  · unfold handle_request
    dsimp only
    cases postRes <;> rfl
  · unfold handle_request
    dsimp only
    cases postRes <;> rfl

/-- Claim C10: `GreenPool.__init__` with `max_workers` equal to `None`
or `0` sets the bound to the default `100` (a falsy argument is treated
as unset), and for every other argument `m` the bound is
`min m 1000`. -/
theorem greenPool_max_workers_defaulting :
    maxWorkersOf none = 100
    ∧ maxWorkersOf (some 0) = 100
    ∧ (∀ m : Int, m ≠ 0 → maxWorkersOf (some m) = min m 1000)
    ∧ (∀ m : Option Int, (mkPool m).maxWorkers = maxWorkersOf m) := by
  refine ⟨by decide, by decide, ?_, fun m => rfl⟩
  intro m h
  simp [maxWorkersOf, pyOrDefault, MAX_WORKERS, h]

/-- Claim C10 witness: the defaulting theorem applied at the concrete
argument `7`. -/
theorem greenPool_max_workers_defaulting_witness :
    (7 : Int) ≠ 0 ∧ maxWorkersOf (some 7) = min 7 1000 :=
  ⟨by decide, greenPool_max_workers_defaulting.2.2.1 7 (by decide)⟩

/-- Claim C2: the deque is FIFO — a `submit` with no shutdown pending
allocates the next future and enqueues the new task on the left end of
the deque (its tail) over an otherwise untouched queue before a single
dispatch check runs; and a dispatch check removes the oldest entry (the
right end) first, handing exactly that entry to an idle greenlet when
one exists. -/
theorem greenPool_fifo_enqueue_tail_dispatch_oldest :
    (∀ (s : Pool) (prog : TaskProg), s.shutdown = false →
        submit s prog =
          (Except.ok s.nextFut,
           check_queue
             { adjust_greenlet_count { s with nextFut := s.nextFut + 1 } with
               queue := QItem.task s.nextFut prog :: s.queue }))
    ∧ (∀ (s : Pool) (q : List QItem) (item : QItem), s.queue = q ++ [item] →
        (check_queue s).queue = q
        ∧ ∀ (g : Nat) (rest : List Nat), s.available = g :: rest →
            (check_queue s).events = s.events ++ [LEvent.startGreenTask g item]) := by
  refine ⟨?_, ?_⟩
  · intro s prog h
    simp only [submit, h, Bool.false_eq_true, if_false, put]
    rw [adjust_queue_eq]
  · intro s q item h
    refine ⟨?_, ?_⟩
    · unfold check_queue
      simp only [h, List.getLast?_concat, List.dropLast_concat]
      cases hav : s.available <;> rfl
    · intro g rest hav
      unfold check_queue
      simp only [h, hav, List.getLast?_concat, List.dropLast_concat]

/-- Claim C2 witness: the FIFO theorem applied at a fresh pool and at a
pool holding one queued item and one idle greenlet. -/
theorem greenPool_fifo_enqueue_tail_dispatch_oldest_witness :
    poolA.shutdown = false
    ∧ submit poolA (plainTask 2)
        = (Except.ok poolA.nextFut,
           check_queue
             { adjust_greenlet_count { poolA with nextFut := poolA.nextFut + 1 } with
               queue := QItem.task poolA.nextFut (plainTask 2) :: poolA.queue })
    ∧ poolQueuedEx.queue = [] ++ [QItem.sentinel]
    ∧ (check_queue poolQueuedEx).queue = []
    ∧ (check_queue poolQueuedEx).events
        = poolQueuedEx.events ++ [LEvent.startGreenTask 5 QItem.sentinel] :=
  ⟨rfl,
   greenPool_fifo_enqueue_tail_dispatch_oldest.1 poolA (plainTask 2) rfl,
   rfl,
   (greenPool_fifo_enqueue_tail_dispatch_oldest.2 poolQueuedEx [] QItem.sentinel rfl).1,
   (greenPool_fifo_enqueue_tail_dispatch_oldest.2 poolQueuedEx [] QItem.sentinel rfl).2
     5 [] rfl⟩

/-- Claim C4 counterexample: on a pool that never created a greenlet,
`shutdown(wait=True)` leaves a pending waiter that is never resolved —
the loop is quiescent (no callback left, stepping is a fixpoint) with
`liveContexts` empty and the waiter future unresolved, so the returned
future does not resolve even though the live-context set is empty. -/
theorem greenPool_shutdown_empty_pool_waiter_never_resolves :
    scenarioEmptyShutdown.greenlets = []
    ∧ scenarioEmptyShutdown.waiter = true
    ∧ scenarioEmptyShutdown.waiterResolved = false
    ∧ scenarioEmptyShutdown.events = []
    ∧ stepPool scenarioEmptyShutdown = scenarioEmptyShutdown := by
  decide

/-- Claim C4 (amended): the waiter future of `shutdown(wait=True)` is
resolved only by the last terminating greenlet — every loop step
preserves the invariant that a resolved waiter implies the shutdown flag
is set and the live-greenlet set is empty (so the future never resolves
while a context is live or mid-task) — and on a pool with a live idle
greenlet the cascaded drain does resolve it once the live set empties.
A pool that never created a greenlet never resolves the future even
though its live set is empty. -/
theorem greenPool_drain_waiter_amended :
    (∀ s : Pool, drainInv s → drainInv (stepPool s))
    ∧ scenarioDrainPool.waiterResolved = true
    ∧ scenarioDrainPool.greenlets = [] :=
  ⟨fun s h => drainInv_step s h, by decide, by decide⟩

/-- Claim C4 witness: the invariant preservation applied at the
concrete drained pool. -/
theorem greenPool_drain_waiter_amended_witness :
    drainInv scenarioDrainPool ∧ drainInv (stepPool scenarioDrainPool) :=
  ⟨by decide, greenPool_drain_waiter_amended.1 scenarioDrainPool (by decide)⟩

/-- Claim C6: the constructed bound never exceeds the hard ceiling 1000;
a greenlet is created by `_adjust_greenlet_count` only when the live
count is strictly below the bound (otherwise the pool is unchanged);
`submit` and `shutdown` preserve the bound on the live-greenlet count;
and a loop step never grows the live-greenlet set (contexts are
otherwise only removed). -/
theorem greenPool_live_contexts_bounded :
    (∀ m : Option Int, (mkPool m).maxWorkers ≤ 1000)
    ∧ (∀ s : Pool,
        (s.greenlets.length : Int) < s.maxWorkers ∨ adjust_greenlet_count s = s)
    ∧ (∀ (s : Pool) (prog : TaskProg),
        (s.greenlets.length : Int) ≤ s.maxWorkers →
        (((submit s prog).2.greenlets.length : Int) ≤ (submit s prog).2.maxWorkers))
    ∧ (∀ (s : Pool) (w : Bool),
        (s.greenlets.length : Int) ≤ s.maxWorkers →
        (((shutdownPool s w).greenlets.length : Int) ≤ (shutdownPool s w).maxWorkers))
    ∧ (∀ s : Pool, (stepPool s).greenlets.length ≤ s.greenlets.length
        ∧ (stepPool s).maxWorkers = s.maxWorkers) := by
  refine ⟨?_, ?_, ?_, ?_, ?_⟩
  · intro m
    simp only [mkPool, maxWorkersOf, MAX_WORKERS]
    exact min_le_right _ _
  · intro s
    by_cases hlt : (s.greenlets.length : Int) < s.maxWorkers
    · exact Or.inl hlt
    · refine Or.inr ?_
      unfold adjust_greenlet_count
      simp [hlt]
  · intro s prog h
    unfold submit
    split_ifs with hs
    · exact h
    · dsimp only
      rw [put_task_greenlets, put_task_maxWorkers]
      exact adjust_length_le _ h
  · intro s w h
    cases w
    · simp only [shutdownPool, if_false, Bool.false_eq_true]
      rw [put_sentinel_greenlets, put_sentinel_maxWorkers]
      exact h
    · simp only [shutdownPool, if_true]
      rw [show ({ put { s with shutdown := true } QItem.sentinel with waiter := true } : Pool).greenlets
            = (put { s with shutdown := true } QItem.sentinel).greenlets from rfl]
      rw [put_sentinel_greenlets, put_sentinel_maxWorkers]
      exact h
  · intro s
    exact ⟨step_greenlets_length s, step_maxWorkers s⟩

/-- Claim C6 witness: bound preservation of `submit` applied at a fresh
pool. -/
theorem greenPool_live_contexts_bounded_witness :
    ((poolA.greenlets.length : Int) ≤ poolA.maxWorkers)
    ∧ (((submit poolA (plainTask 0)).2.greenlets.length : Int)
        ≤ (submit poolA (plainTask 0)).2.maxWorkers) :=
  ⟨by decide, greenPool_live_contexts_bounded.2.2.1 poolA (plainTask 0) (by decide)⟩

/-- Claim C8 counterexample: with `max_requests = 1`, the trace of the
first (and only accepted) request shows the stop of the event loop
initiated by `check_num_requests` BEFORE the request body is handled —
the Kth request is not completed before the stopping path is entered,
though it is still completed, and request 2 is never started. -/
theorem worker_stop_initiated_before_kth_request_completes :
    scenarioMaxOneTrace
      = [WEvent.incremented 1, WEvent.stopInitiated, WEvent.preRequestHook 10,
         WEvent.handleStarted 10, WEvent.handled 10, WEvent.postRequestHook 10]
    ∧ handledOf scenarioMaxOneTrace = [10] := by
  decide

/-- Claim C8 (amended): with `max_requests = K ≠ 0`, a worker serving a
request stream accepts and completes exactly the first `K` requests —
request `K+1` is never started; and on the request that meets the
threshold the counter increment and the loop stop happen, in that
order, before the request body runs, so the stopping path is entered
during (not after) the Kth request, which still completes. -/
theorem worker_max_requests_amended :
    (∀ (k : Nat) (rs : List Nat), k ≠ 0 →
        handledOf (serveRequests (workerStart (some k)) rs).2 = rs.take k)
    ∧ (∀ (w : Worker) (req : Nat),
        w.running = true → w.max_requests ≠ 0 → w.max_requests ≤ w.nr + 1 →
        (handle_request w req (Except.ok ()) (Except.ok ())).2.2
          = [WEvent.incremented (w.nr + 1), WEvent.stopInitiated,
             WEvent.preRequestHook req, WEvent.handleStarted req,
             WEvent.handled req, WEvent.postRequestHook req]) := by
  refine ⟨?_, ?_⟩
  · intro k rs hk
    have hmax : (workerStart (some k)).max_requests = k := by
      simp [workerStart, maxRequestsOf, hk]
    have h := serve_handled_take rs (workerStart (some k))
      (by rw [hmax]; exact hk)
      (by simp [workerStart, maxRequestsOf, hk, Nat.pos_of_ne_zero hk])
    rw [hmax] at h
    simpa using h
  · intro w req hrun h1 hle
    unfold handle_request check_num_requests workerStop
    dsimp only
    simp [hrun, h1, hle]

/-- Claim C8 witness: the amended counting theorem applied at
`max_requests = 3` over five offered requests. -/
theorem worker_max_requests_amended_witness :
    (3 : Nat) ≠ 0
    ∧ handledOf (serveRequests (workerStart (some 3)) [1, 2, 3, 4, 5]).2
        = [1, 2, 3, 4, 5].take 3 :=
  ⟨by decide, worker_max_requests_amended.1 3 [1, 2, 3, 4, 5] (by decide)⟩

end Pulsar
